import Mathlib

/-!
Verification of the cadeautjes-demo backend (gift lifecycle engine).

Shallow embedding of `src/cadeautjes-backend/src/routes/gifts.ts` and the
schema of `src/cadeautjes-backend/src/models/database.ts`.  The sqlite store
is modelled as lists of rows; each route handler becomes a pure function from
a `Db` (plus request data) to a new `Db` and a result.  Fresh uuids and the
current time enter as explicit parameters.  Prices (sqlite DECIMAL(10,2)) are
modelled as integer cents; request quantities reach the handler unvalidated,
so they are modelled as `Int`.
-/

namespace Cadeautjes

/-- Row of the `gift_types` table (database.ts, CREATE TABLE gift_types). -/
structure GiftType where
  id : Nat
  name : String
  emoji : String
  description : String
  price : Int
  category : String
  active : Bool
deriving DecidableEq

/-- Row of the `user_gifts` inventory table (database.ts). `quantity` is an
`Int`: the schema is INTEGER and the purchase route applies unvalidated
request quantities to it. -/
structure UserGift where
  userId : Nat
  giftTypeId : Nat
  quantity : Int
deriving DecidableEq

/-- Transaction status.  The stored string is `'sent'` (schema default) or
`'redeemed'`; the spec names the `'sent'` state `issued`. -/
inductive TxStatus where
  | sent
  | redeemed
deriving DecidableEq

/-- Row of the `transactions` table (database.ts).  `created_at` is not
modelled (no claim depends on it); `redeemedAt` holds an abstract clock
value. -/
structure Transaction where
  id : String
  senderId : Nat
  receiverEmail : Option String
  giftTypeId : Nat
  status : TxStatus
  qrCode : String
  message : Option String
  redeemedAt : Option Nat
  partnerId : Option Nat
deriving DecidableEq

/-- Row of the `purchases` table; `items` keeps the request list (the source
stores it JSON-serialised). -/
structure PurchaseRow where
  id : String
  userId : Nat
  items : List (Nat × Int)
  totalAmount : Int
deriving DecidableEq

/-- The persistent store backing the routes. -/
structure Db where
  giftTypes : List GiftType
  userGifts : List UserGift
  transactions : List Transaction
  purchases : List PurchaseRow
deriving DecidableEq

/-- WHERE user_id = ? AND gift_type_id = ? (user_gifts). -/
def ugMatch (uid gid : Nat) (ug : UserGift) : Bool :=
  ug.userId == uid && ug.giftTypeId == gid

/-- WHERE user_id = ? AND gift_type_id = ? AND quantity > 0 (send route). -/
def ugAvail (uid gid : Nat) (ug : UserGift) : Bool :=
  ugMatch uid gid ug && decide (0 < ug.quantity)

/-- WHERE id = ? (gift_types). -/
def gtMatch (gid : Nat) (gt : GiftType) : Bool :=
  gt.id == gid

/-- WHERE id = ? AND active = 1 (gift_types, purchase route). -/
def gtActiveMatch (gid : Nat) (gt : GiftType) : Bool :=
  gt.id == gid && gt.active

/-- UPDATE user_gifts SET quantity = quantity + ? WHERE user_id = ? AND
gift_type_id = ? — effect on one row. -/
def addQty (uid gid : Nat) (q : Int) (ug : UserGift) : UserGift :=
  if ugMatch uid gid ug then { ug with quantity := ug.quantity + q } else ug

/-- UPDATE user_gifts SET quantity = quantity - 1 WHERE user_id = ? AND
gift_type_id = ? — effect on one row (send route). -/
def subOne (uid gid : Nat) (ug : UserGift) : UserGift :=
  if ugMatch uid gid ug then { ug with quantity := ug.quantity - 1 } else ug

/-- Result of POST /purchase (gifts.ts lines 24-90). -/
inductive PurchaseResult where
  | ok (purchaseId : String) (totalAmount : Int)
  | itemsRequired
  | invalidGiftType (gid : Nat)
deriving DecidableEq

/-- One loop iteration's inventory upsert (gifts.ts lines 54-70): UPDATE the
existing row, else INSERT a new row at `quantity`. -/
def creditItem (db : Db) (uid gid : Nat) (q : Int) : Db :=
  match db.userGifts.find? (ugMatch uid gid) with
  | some _ => { db with userGifts := db.userGifts.map (addQty uid gid q) }
  | none => { db with userGifts := db.userGifts ++ [⟨uid, gid, q⟩] }

/-- The `for (const item of items)` loop (gifts.ts lines 42-71): resolve the
gift type (active only), accumulate `totalAmount += price * quantity`, and
upsert the inventory; an unresolvable item aborts with an error, keeping the
mutations already made for earlier items. -/
def purchaseItems : Db → Nat → List (Nat × Int) → Int → Db × Except Nat Int
  | db, _, [], total => (db, Except.ok total)
  | db, uid, (gid, q) :: rest, total =>
    match db.giftTypes.find? (gtActiveMatch gid) with
    | none => (db, Except.error gid)
    | some gt => purchaseItems (creditItem db uid gid q) uid rest (total + gt.price * q)

/-- POST /purchase (gifts.ts lines 24-90): reject an empty item list, run the
loop, then INSERT one `purchases` row with the original items and the
computed total.  `pid` stands for the fresh uuid `purchaseId`. -/
def purchase (db : Db) (uid : Nat) (pid : String) (items : List (Nat × Int)) :
    Db × PurchaseResult :=
  if items.isEmpty then (db, PurchaseResult.itemsRequired)
  else
    match purchaseItems db uid items 0 with
    | (db1, Except.error gid) => (db1, PurchaseResult.invalidGiftType gid)
    | (db1, Except.ok total) =>
      ({ db1 with purchases := db1.purchases ++ [⟨pid, uid, items, total⟩] },
       PurchaseResult.ok pid total)

/-- First `user_gifts` row for (account, gift definition), else 0 — the
inventory balance (the upsert keeps at most one row per pair). -/
def balance (db : Db) (uid gid : Nat) : Int :=
  match db.userGifts.find? (ugMatch uid gid) with
  | some ug => ug.quantity
  | none => 0

/-- Result of POST /send (gifts.ts lines 125-190).  `ok` carries the
transaction id, the QR payload and the gift name returned in the response. -/
inductive SendResult where
  | ok (txId qr gname : String)
  | giftTypeIdRequired
  | notAvailable
  | storageFailure
  | internalError
deriving DecidableEq

/-- The PRIMARY KEY / UNIQUE(qr_code) clash test for INSERT INTO
transactions: the insert throws iff some existing row has the same id or the
same qr_code. -/
def txClash (txId : String) (t : Transaction) : Bool :=
  t.id == txId || t.qrCode == ("CADEAUTJE-" ++ txId)

/-- POST /send (gifts.ts lines 125-190).  `txId` stands for the fresh uuid.
Steps, in source order: reject a falsy giftTypeId; require a `user_gifts` row
with quantity > 0; look the gift type up with no `active` filter; build
`qrCodeData = "CADEAUTJE-" + transactionId`; INSERT the transaction (status
takes the schema default `'sent'`, the spec's `issued`; a PRIMARY KEY or
UNIQUE(qr_code) violation throws before any mutation); decrement the
sender's inventory; answer with the gift details (reading them from a
missing gift type row throws after the mutations). -/
def send (db : Db) (uid gid : Nat) (recv msg : Option String) (txId : String) :
    Db × SendResult :=
  if gid == 0 then (db, SendResult.giftTypeIdRequired)
  else
    match db.userGifts.find? (ugAvail uid gid) with
    | none => (db, SendResult.notAvailable)
    | some _ =>
      let gtOpt := db.giftTypes.find? (gtMatch gid)
      let qr := "CADEAUTJE-" ++ txId
      if db.transactions.any (txClash txId) then (db, SendResult.storageFailure)
      else
        let tx : Transaction := ⟨txId, uid, recv, gid, TxStatus.sent, qr, msg, none, none⟩
        let db2 : Db := { db with
          transactions := db.transactions ++ [tx],
          userGifts := db.userGifts.map (subOne uid gid) }
        match gtOpt with
        | none => (db2, SendResult.internalError)
        | some gt => (db2, SendResult.ok txId qr gt.name)

/-- Codepoint key of a string: the sqlite BINARY collation used by ORDER BY
on TEXT columns compares code units; all fixture data is ASCII, where this
agrees with codepoint order. -/
def strKey (s : String) : List Nat :=
  s.data.map Char.toNat

/-- Lexicographic ≤ on codepoint keys (the collation order). -/
def natsLe : List Nat → List Nat → Bool
  | [], _ => true
  | _ :: _, [] => false
  | a :: as, b :: bs => a < b || (a == b && natsLe as bs)

/-- ORDER BY gt.category, gt.name (inventory route, gifts.ts line 113). -/
def catNameLe (a b : UserGift × GiftType) : Prop :=
  natsLe (strKey a.2.category) (strKey b.2.category) = true ∧
    (strKey a.2.category = strKey b.2.category →
      natsLe (strKey a.2.name) (strKey b.2.name) = true)

/-- ORDER BY ug.quantity DESC, gt.name (sync route, gifts.ts line 303). -/
def qtyNameLe (a b : UserGift × GiftType) : Prop :=
  b.1.quantity ≤ a.1.quantity ∧
    (a.1.quantity = b.1.quantity →
      natsLe (strKey a.2.name) (strKey b.2.name) = true)

instance : DecidableRel catNameLe := fun a b => by
  unfold catNameLe; infer_instance

instance : DecidableRel qtyNameLe := fun a b => by
  unfold qtyNameLe; infer_instance

/-- FROM user_gifts ug JOIN gift_types gt ON ug.gift_type_id = gt.id WHERE
ug.user_id = ? AND ug.quantity > 0 — the row set shared by the inventory
route (lines 101-114) and the sync route (lines 293-304); only the SELECTed
column projection differs, which is dropped here. -/
def userInventoryRows (db : Db) (uid : Nat) : List (UserGift × GiftType) :=
  db.userGifts.filterMap (fun ug =>
    if ug.userId == uid && decide (0 < ug.quantity) then
      (db.giftTypes.find? (gtMatch ug.giftTypeId)).map (fun gt => (ug, gt))
    else none)

/-- GET /inventory (gifts.ts lines 93-122): the joined rows ordered by
category then name. -/
def inventoryQuery (db : Db) (uid : Nat) : List (UserGift × GiftType) :=
  List.insertionSort catNameLe (userInventoryRows db uid)

/-- POST /sync inventory list (gifts.ts lines 293-304): the same joined rows
ordered by quantity descending then name. -/
def syncQuery (db : Db) (uid : Nat) : List (UserGift × GiftType) :=
  List.insertionSort qtyNameLe (userInventoryRows db uid)

/-- Result of the redeem operation. -/
inductive RedeemResult where
  | success
  | alreadyRedeemed
  | notFound
deriving DecidableEq

/-- WHERE qr_code = ? (transactions). -/
def txCode (code : String) (t : Transaction) : Bool :=
  t.qrCode == code

/-- Modelled from the spec: the conditional write of the redeem operation
(POST /api/partners/redeem lives in routes/partners.ts, which is not under
src/).  §5: "update status to redeemed where status = issued"; §4.3: on
success set `redeemedAt` to the current time and record the redeeming
party. -/
def redeemUpdate (code : String) (now : Nat) (party : Option Nat)
    (t : Transaction) : Transaction :=
  if txCode code t && t.status == TxStatus.sent then
    { t with status := TxStatus.redeemed, redeemedAt := some now, partnerId := party }
  else t

/-- Modelled from the spec: the redeem operation itself (routes/partners.ts,
not under src/).  §4.3: an unknown code fails with `NotFound`; a `redeemed`
transaction fails with `AlreadyRedeemed`; otherwise the `issued` (stored
`'sent'`) transaction becomes `redeemed`.  §5 makes each call one atomic
conditional update inside a single transactional boundary, so a group of
concurrent calls is modelled by applying the atomic step in sequence. -/
def redeem (db : Db) (code : String) (now : Nat) (party : Option Nat) :
    Db × RedeemResult :=
  match db.transactions.find? (txCode code) with
  | none => (db, RedeemResult.notFound)
  | some t =>
    match t.status with
    | TxStatus.redeemed => (db, RedeemResult.alreadyRedeemed)
    | TxStatus.sent =>
      ({ db with transactions := db.transactions.map (redeemUpdate code now party) },
       RedeemResult.success)

/-- Any serialization of N concurrent redeem calls on one code: each element
of `calls` is one caller's (clock value, redeeming party). -/
def redeemSeq : Db → String → List (Nat × Option Nat) → Db × List RedeemResult
  | db, _, [] => (db, [])
  | db, code, c :: rest =>
    let st := redeem db code c.1 c.2
    let tail := redeemSeq st.1 code rest
    (tail.1, st.2 :: tail.2)

/-- Toggling `active` flags only (a catalog-level operation; used to state
that send never reads the flag). -/
def mapActive (f : GiftType → Bool) (db : Db) : Db :=
  { db with giftTypes := db.giftTypes.map (fun gt => { gt with active := f gt }) }

/-! ### Concrete fixtures (catalog rows mirror database.ts sample data) -/

def giftBeer : GiftType := ⟨1, "Biertje", "B", "Een lekker biertje", 350, "drinks", true⟩

def giftCake : GiftType := ⟨2, "Taartje", "T", "Een stuk taart", 375, "food", true⟩

/-- A gift definition whose `active` flag was turned off. -/
def giftRetro : GiftType := ⟨3, "Retro", "R", "retired item", 500, "food", false⟩

/-- Catalog only; no inventory, transactions or receipts yet. -/
def freshDb : Db := ⟨[giftBeer, giftCake, giftRetro], [], [], []⟩

/-- Account 1 holds 1 beer, 5 cakes and 2 units of the inactive gift. -/
def exDb : Db := ⟨[giftBeer, giftCake, giftRetro], [⟨1, 1, 1⟩, ⟨1, 2, 5⟩, ⟨1, 3, 2⟩], [], []⟩

/-- A freshly issued transaction t1 for the beer gift. -/
def tx1 : Transaction := ⟨"t1", 1, none, 1, TxStatus.sent, "CADEAUTJE-t1", none, none, none⟩

/-- `exDb` after issuing `tx1`. -/
def exDbT : Db :=
  ⟨[giftBeer, giftCake, giftRetro], [⟨1, 1, 0⟩, ⟨1, 2, 5⟩, ⟨1, 3, 2⟩], [tx1], []⟩

/-! ### Generic list lemmas -/

/-- `find?` commutes with a map that does not change the predicate's value. -/
theorem find?_map_congr {α : Type} (g : α → α) (p : α → Bool)
    (hg : ∀ a, p (g a) = p a) :
    ∀ l : List α, (l.map g).find? p = (l.find? p).map g := by
  intro l
  induction l with
  | nil => rfl
  | cons a l ih =>
    cases h : p a with
    | true =>
      rw [List.map_cons, List.find?_cons_of_pos _ (by rw [hg]; exact h),
        List.find?_cons_of_pos _ h, Option.map_some']
    | false =>
      rw [List.map_cons, List.find?_cons_of_neg _ (by rw [hg, h]; exact Bool.false_ne_true),
        List.find?_cons_of_neg _ (by rw [h]; exact Bool.false_ne_true), ih]

/-- Strengthening the predicate of a successful `find?` by a condition the
found element satisfies does not change the result, provided the stronger
predicate is the conjunction of the two. -/
theorem find?_strengthen {α : Type} (p q r : α → Bool)
    (hr : ∀ x, r x = (p x && q x)) :
    ∀ (l : List α) (a : α), l.find? p = some a → q a = true → l.find? r = some a := by
  intro l
  induction l with
  | nil => intro a h; exact absurd h (by simp)
  | cons x l ih =>
    intro a h hq
    cases hp : p x with
    | true =>
      rw [List.find?_cons_of_pos _ hp] at h
      cases h
      rw [List.find?_cons_of_pos]
      rw [hr, hp, hq]
      rfl
    | false =>
      rw [List.find?_cons_of_neg _ (by rw [hp]; exact Bool.false_ne_true)] at h
      rw [List.find?_cons_of_neg _ (by rw [hr, hp]; simp), ih a h hq]

/-- `find?` over an append whose first part has no hit. -/
theorem find?_append_none {α : Type} (p : α → Bool) :
    ∀ l l' : List α, l.find? p = none → (l ++ l').find? p = l'.find? p := by
  intro l l'
  induction l with
  | nil => intro _; rfl
  | cons x l ih =>
    intro h
    rw [List.find?_cons] at h
    cases hp : p x with
    | true => rw [hp] at h; exact absurd h (by simp)
    | false =>
      rw [hp] at h
      rw [List.cons_append, List.find?_cons_of_neg _ (by rw [hp]; exact Bool.false_ne_true),
        ih h]

/-! ### Laws of the collation order -/

theorem natsLe_refl : ∀ x : List Nat, natsLe x x = true := by
  intro x
  induction x with
  | nil => rfl
  | cons a as ih => simp [natsLe, ih]

theorem natsLe_total : ∀ x y : List Nat, natsLe x y = true ∨ natsLe y x = true := by
  intro x
  induction x with
  | nil => intro y; exact Or.inl rfl
  | cons a as ih =>
    intro y
    cases y with
    | nil => exact Or.inr rfl
    | cons b bs =>
      rcases Nat.lt_trichotomy a b with h | h | h
      · exact Or.inl (by simp [natsLe, h])
      · subst h
        rcases ih bs with h2 | h2
        · exact Or.inl (by simp [natsLe, h2])
        · exact Or.inr (by simp [natsLe, h2])
      · exact Or.inr (by simp [natsLe, h])

theorem natsLe_antisymm : ∀ x y : List Nat,
    natsLe x y = true → natsLe y x = true → x = y := by
  intro x
  induction x with
  | nil =>
    intro y _ h2
    cases y with
    | nil => rfl
    | cons b bs => exact absurd h2 (by simp [natsLe])
  | cons a as ih =>
    intro y h1 h2
    cases y with
    | nil => exact absurd h1 (by simp [natsLe])
    | cons b bs =>
      simp only [natsLe, Bool.or_eq_true, Bool.and_eq_true, decide_eq_true_eq,
        beq_iff_eq] at h1 h2
      rcases h1 with h1 | ⟨rfl, h1⟩
      · rcases h2 with h2 | ⟨h2, _⟩ <;> omega
      · rcases h2 with h2 | ⟨_, h2⟩
        · omega
        · rw [ih bs h1 h2]

theorem natsLe_trans : ∀ x y z : List Nat,
    natsLe x y = true → natsLe y z = true → natsLe x z = true := by
  intro x
  induction x with
  | nil => intro y z _ _; rfl
  | cons a as ih =>
    intro y z h1 h2
    cases y with
    | nil => exact absurd h1 (by simp [natsLe])
    | cons b bs =>
      cases z with
      | nil => exact absurd h2 (by simp [natsLe])
      | cons c cs =>
        simp only [natsLe, Bool.or_eq_true, Bool.and_eq_true, decide_eq_true_eq,
          beq_iff_eq] at h1 h2 ⊢
        rcases h1 with h1 | ⟨rfl, h1⟩
        · rcases h2 with h2 | ⟨rfl, _⟩
          · exact Or.inl (Nat.lt_trans h1 h2)
          · exact Or.inl h1
        · rcases h2 with h2 | ⟨rfl, h2⟩
          · exact Or.inl h2
          · exact Or.inr ⟨rfl, ih bs cs h1 h2⟩

instance : IsTotal (UserGift × GiftType) catNameLe where
  total a b := by
    unfold catNameLe
    rcases natsLe_total (strKey a.2.category) (strKey b.2.category) with h | h
    · by_cases h2 : natsLe (strKey b.2.category) (strKey a.2.category) = true
      · have heq := natsLe_antisymm _ _ h h2
        rcases natsLe_total (strKey a.2.name) (strKey b.2.name) with h3 | h3
        · exact Or.inl ⟨h, fun _ => h3⟩
        · exact Or.inr ⟨h2, fun _ => h3⟩
      · exact Or.inl ⟨h, fun heq => absurd (heq ▸ natsLe_refl _) h2⟩
    · by_cases h2 : natsLe (strKey a.2.category) (strKey b.2.category) = true
      · have heq := natsLe_antisymm _ _ h2 h
        rcases natsLe_total (strKey a.2.name) (strKey b.2.name) with h3 | h3
        · exact Or.inl ⟨h2, fun _ => h3⟩
        · exact Or.inr ⟨h, fun _ => h3⟩
      · exact Or.inr ⟨h, fun heq => absurd (heq ▸ natsLe_refl _) h2⟩

instance : IsTrans (UserGift × GiftType) catNameLe where
  trans a b c hab hbc := by
    obtain ⟨h1, h1n⟩ := hab
    obtain ⟨h2, h2n⟩ := hbc
    refine ⟨natsLe_trans _ _ _ h1 h2, fun heq => ?_⟩
    have hba : natsLe (strKey b.2.category) (strKey a.2.category) = true := by
      rw [← heq] at h2
      exact h2
    have hab2 := natsLe_antisymm _ _ h1 hba
    exact natsLe_trans _ _ _ (h1n hab2) (h2n (hab2 ▸ heq))

instance : IsTotal (UserGift × GiftType) qtyNameLe where
  total a b := by
    unfold qtyNameLe
    rcases lt_trichotomy a.1.quantity b.1.quantity with h | h | h
    · exact Or.inr ⟨le_of_lt h, fun heq => absurd heq.symm (ne_of_lt h)⟩
    · rcases natsLe_total (strKey a.2.name) (strKey b.2.name) with h3 | h3
      · exact Or.inl ⟨le_of_eq h.symm, fun _ => h3⟩
      · exact Or.inr ⟨le_of_eq h, fun _ => h3⟩
    · exact Or.inl ⟨le_of_lt h, fun heq => absurd heq (ne_of_gt h)⟩

instance : IsTrans (UserGift × GiftType) qtyNameLe where
  trans a b c hab hbc := by
    obtain ⟨h1, h1n⟩ := hab
    obtain ⟨h2, h2n⟩ := hbc
    refine ⟨le_trans h2 h1, fun heq => ?_⟩
    have hb : a.1.quantity = b.1.quantity := le_antisymm (heq ▸ h2) h1
    exact natsLe_trans _ _ _ (h1n hb) (h2n (hb ▸ heq))

/-! ### Facts about the row-update functions -/

theorem ugMatch_addQty (uid gid : Nat) (q : Int) (a : UserGift) :
    ugMatch uid gid (addQty uid gid q a) = ugMatch uid gid a := by
  unfold addQty
  split <;> rfl

theorem ugMatch_subOne (uid gid : Nat) (a : UserGift) :
    ugMatch uid gid (subOne uid gid a) = ugMatch uid gid a := by
  unfold subOne
  split <;> rfl

theorem txCode_redeemUpdate (c code : String) (n : Nat) (p : Option Nat) (t : Transaction) :
    txCode c (redeemUpdate code n p t) = txCode c t := by
  unfold redeemUpdate
  split <;> rfl

@[simp] theorem beq_sent_sent : (TxStatus.sent == TxStatus.sent) = true := rfl

@[simp] theorem beq_redeemed_sent : (TxStatus.redeemed == TxStatus.sent) = false := rfl

theorem redeemUpdate_hit (code : String) (n : Nat) (p : Option Nat) (t : Transaction)
    (hc : txCode code t = true) (hs : t.status = TxStatus.sent) :
    redeemUpdate code n p t
      = { t with status := TxStatus.redeemed, redeemedAt := some n, partnerId := p } := by
  simp [redeemUpdate, hc, hs]

theorem redeemUpdate_skip_redeemed (code : String) (n : Nat) (p : Option Nat)
    (t : Transaction) (hs : t.status = TxStatus.redeemed) :
    redeemUpdate code n p t = t := by
  simp [redeemUpdate, hs]

/-- A convenient closed form of `balance`. -/
theorem balance_def (db : Db) (uid gid : Nat) :
    balance db uid gid
      = ((db.userGifts.find? (ugMatch uid gid)).map UserGift.quantity).getD 0 := by
  unfold balance
  cases db.userGifts.find? (ugMatch uid gid) <;> rfl

theorem creditItem_giftTypes (db : Db) (uid gid : Nat) (q : Int) :
    (creditItem db uid gid q).giftTypes = db.giftTypes := by
  unfold creditItem
  split <;> rfl

theorem creditItem_purchases (db : Db) (uid gid : Nat) (q : Int) :
    (creditItem db uid gid q).purchases = db.purchases := by
  unfold creditItem
  split <;> rfl

theorem creditItem_transactions (db : Db) (uid gid : Nat) (q : Int) :
    (creditItem db uid gid q).transactions = db.transactions := by
  unfold creditItem
  split <;> rfl

/-- The purchase loop's upsert adds exactly `q` to the account's balance. -/
theorem balance_creditItem (db : Db) (uid gid : Nat) (q : Int) :
    balance (creditItem db uid gid q) uid gid = balance db uid gid + q := by
  rw [balance_def, balance_def]
  unfold creditItem
  cases hf : db.userGifts.find? (ugMatch uid gid) with
  | none =>
    simp only [hf]
    rw [find?_append_none _ _ _ hf,
      List.find?_cons_of_pos _ (show ugMatch uid gid ⟨uid, gid, q⟩ = true by simp [ugMatch])]
    simp [hf]
  | some u =>
    simp only [hf]
    rw [find?_map_congr _ _ (ugMatch_addQty uid gid q), hf]
    have hu := List.find?_some hf
    simp [addQty, hu]

/-! ### Behaviour of the redeem step -/

theorem redeem_not_found (db : Db) (code : String) (n : Nat) (p : Option Nat)
    (h : db.transactions.find? (txCode code) = none) :
    redeem db code n p = (db, RedeemResult.notFound) := by
  simp only [redeem, h]

theorem redeem_already (db : Db) (code : String) (t : Transaction) (n : Nat) (p : Option Nat)
    (h : db.transactions.find? (txCode code) = some t) (hs : t.status = TxStatus.redeemed) :
    redeem db code n p = (db, RedeemResult.alreadyRedeemed) := by
  simp only [redeem, h, hs]

theorem redeem_fresh (db : Db) (code : String) (t0 : Transaction) (n : Nat) (p : Option Nat)
    (h : db.transactions.find? (txCode code) = some t0) (hs : t0.status = TxStatus.sent) :
    redeem db code n p
      = ({ db with transactions := db.transactions.map (redeemUpdate code n p) },
         RedeemResult.success) := by
  simp only [redeem, h, hs]

theorem find?_after_redeemUpdate (db : Db) (code : String) (t0 : Transaction)
    (n : Nat) (p : Option Nat)
    (h : db.transactions.find? (txCode code) = some t0) :
    (db.transactions.map (redeemUpdate code n p)).find? (txCode code)
      = some (redeemUpdate code n p t0) := by
  rw [find?_map_congr _ _ (txCode_redeemUpdate code code n p), h, Option.map_some']

/-- Once the transaction behind a code is `redeemed`, any further sequence of
redeem calls answers `AlreadyRedeemed` every time and changes nothing. -/
theorem redeemSeq_redeemed (code : String) :
    ∀ (calls : List (Nat × Option Nat)) (db : Db) (t : Transaction),
      db.transactions.find? (txCode code) = some t → t.status = TxStatus.redeemed →
      redeemSeq db code calls
        = (db, List.replicate calls.length RedeemResult.alreadyRedeemed) := by
  intro calls
  induction calls with
  | nil => intro db t _ _; rfl
  | cons c rest ih =>
    intro db t h hs
    simp only [redeemSeq, redeem_already db code t c.1 c.2 h hs, ih db t h hs,
      List.length_cons, List.replicate_succ]

@[simp] theorem txStatus_beq_iff (a b : TxStatus) : (a == b) = true ↔ a = b := by
  cases a <;> cases b <;> decide

/-- C1: for a freshly-issued redemption code (the transaction bound to it is
stored with status `'sent'`, the spec's `issued`), any serialization of the
N ≥ 1 concurrent `redeem` calls on that code — each call being one atomic
conditional update per §5 — yields exactly one success and N − 1
`AlreadyRedeemed` results. -/
theorem redeem_concurrent_exclusive (db : Db) (code : String) (t0 : Transaction)
    (c : Nat × Option Nat) (rest : List (Nat × Option Nat))
    (h : db.transactions.find? (txCode code) = some t0)
    (hs : t0.status = TxStatus.sent) :
    (redeemSeq db code (c :: rest)).2
        = RedeemResult.success :: List.replicate rest.length RedeemResult.alreadyRedeemed ∧
    (redeemSeq db code (c :: rest)).2.count RedeemResult.success = 1 ∧
    (redeemSeq db code (c :: rest)).2.count RedeemResult.alreadyRedeemed = rest.length := by
  have hc : txCode code t0 = true := List.find?_some h
  have hafter := find?_after_redeemUpdate db code t0 c.1 c.2 h
  have hred : (redeemUpdate code c.1 c.2 t0).status = TxStatus.redeemed := by
    rw [redeemUpdate_hit code c.1 c.2 t0 hc hs]
  have hmain : (redeemSeq db code (c :: rest)).2
      = RedeemResult.success :: List.replicate rest.length RedeemResult.alreadyRedeemed := by
    simp only [redeemSeq, redeem_fresh db code t0 c.1 c.2 h hs,
      redeemSeq_redeemed code rest
        { db with transactions := db.transactions.map (redeemUpdate code c.1 c.2) }
        (redeemUpdate code c.1 c.2 t0) hafter hred]
  refine ⟨hmain, ?_, ?_⟩ <;> rw [hmain] <;>
    simp [List.count_cons, List.count_replicate]

/-- Witness for C1 on the concrete store `exDbT`: three racing redeem calls
on the fresh code of `tx1`. -/
theorem redeem_concurrent_exclusive_witness :
    (redeemSeq exDbT "CADEAUTJE-t1" [(5, some 9), (6, none), (7, none)]).2
        = RedeemResult.success :: List.replicate 2 RedeemResult.alreadyRedeemed ∧
    (redeemSeq exDbT "CADEAUTJE-t1" [(5, some 9), (6, none), (7, none)]).2.count
        RedeemResult.success = 1 ∧
    (redeemSeq exDbT "CADEAUTJE-t1" [(5, some 9), (6, none), (7, none)]).2.count
        RedeemResult.alreadyRedeemed = 2 :=
  redeem_concurrent_exclusive exDbT "CADEAUTJE-t1" tx1 (5, some 9) [(6, none), (7, none)]
    (by decide) (by decide)

/-- C3: redeem on a bound `'sent'` (spec: issued) code succeeds and stamps
`redeemedAt`; a second sequential call answers `AlreadyRedeemed` and changes
nothing, so `redeemedAt` is untouched; an unbound code answers `NotFound`
with no change; and in any state redeem's only status transition is
`'sent' → 'redeemed'`, with redeemed rows preserved unchanged (terminal). -/
theorem redeem_lifecycle (db : Db) (code badCode : String) (t0 : Transaction)
    (n1 n2 : Nat) (p1 p2 : Option Nat)
    (h : db.transactions.find? (txCode code) = some t0)
    (hs : t0.status = TxStatus.sent)
    (hbad : db.transactions.find? (txCode badCode) = none) :
    (redeem db code n1 p1).2 = RedeemResult.success ∧
    (redeem db code n1 p1).1.transactions.find? (txCode code)
        = some { t0 with status := TxStatus.redeemed, redeemedAt := some n1, partnerId := p1 } ∧
    redeem (redeem db code n1 p1).1 code n2 p2
        = ((redeem db code n1 p1).1, RedeemResult.alreadyRedeemed) ∧
    redeem db badCode n1 p1 = (db, RedeemResult.notFound) ∧
    (∀ (db' : Db) (c : String) (n : Nat) (p : Option Nat),
      (∀ t ∈ db'.transactions, t.status = TxStatus.redeemed →
        t ∈ (redeem db' c n p).1.transactions) ∧
      (∀ t' ∈ (redeem db' c n p).1.transactions,
        t' ∈ db'.transactions ∨
        ∃ t ∈ db'.transactions, t.status = TxStatus.sent ∧
          t' = { t with status := TxStatus.redeemed, redeemedAt := some n, partnerId := p })) := by
  have hc : txCode code t0 = true := List.find?_some h
  have hfresh := redeem_fresh db code t0 n1 p1 h hs
  have hupd := redeemUpdate_hit code n1 p1 t0 hc hs
  have hafter := find?_after_redeemUpdate db code t0 n1 p1 h
  rw [hupd] at hafter
  refine ⟨by rw [hfresh], ?_, ?_, redeem_not_found db badCode n1 p1 hbad, ?_⟩
  · rw [hfresh]
    exact hafter
  · rw [hfresh]
    exact redeem_already _ code _ n2 p2 hafter rfl
  · intro db' c n p
    constructor
    · intro t ht hred
      unfold redeem
      cases hf : db'.transactions.find? (txCode c) with
      | none => simpa using ht
      | some t1 =>
        cases hst : t1.status with
        | redeemed => simp only [hst]; simpa using ht
        | sent =>
          simp only [hst]
          have heq : redeemUpdate c n p t = t := redeemUpdate_skip_redeemed c n p t hred
          have hmem := List.mem_map_of_mem (redeemUpdate c n p) ht
          rw [heq] at hmem
          simpa using hmem
    · intro t' ht'
      revert ht'
      unfold redeem
      cases hf : db'.transactions.find? (txCode c) with
      | none => intro ht'; exact Or.inl (by simpa using ht')
      | some t1 =>
        cases hst : t1.status with
        | redeemed => simp only [hst]; intro ht'; exact Or.inl (by simpa using ht')
        | sent =>
          simp only [hst]
          intro ht'
          obtain ⟨t, htmem, rfl⟩ := List.mem_map.mp (by simpa using ht')
          by_cases hcond : (txCode c t && t.status == TxStatus.sent) = true
          · right
            refine ⟨t, htmem, ?_, ?_⟩
            · exact (txStatus_beq_iff _ _).mp ((Bool.and_eq_true _ _).mp hcond).2
            · simp [redeemUpdate, hcond]
          · left
            have heq : redeemUpdate c n p t = t := by
              unfold redeemUpdate
              rw [if_neg hcond]
            rw [heq]
            exact htmem

/-- Witness for C3 on the concrete store `exDbT`. -/
theorem redeem_lifecycle_witness :
    (redeem exDbT "CADEAUTJE-t1" 11 (some 7)).2 = RedeemResult.success ∧
    (redeem exDbT "CADEAUTJE-t1" 11 (some 7)).1.transactions.find? (txCode "CADEAUTJE-t1")
        = some { tx1 with status := TxStatus.redeemed, redeemedAt := some 11,
                          partnerId := some 7 } ∧
    redeem exDbT "nope" 11 (some 7) = (exDbT, RedeemResult.notFound) :=
  ⟨(redeem_lifecycle exDbT "CADEAUTJE-t1" "nope" tx1 11 12 (some 7) none
      (by decide) (by decide) (by decide)).1,
   (redeem_lifecycle exDbT "CADEAUTJE-t1" "nope" tx1 11 12 (some 7) none
      (by decide) (by decide) (by decide)).2.1,
   (redeem_lifecycle exDbT "CADEAUTJE-t1" "nope" tx1 11 12 (some 7) none
      (by decide) (by decide) (by decide)).2.2.2.1⟩

/-! ### Behaviour of send -/

theorem balance_subOne (db : Db) (uid gid : Nat) (ug0 : UserGift)
    (hug : db.userGifts.find? (ugMatch uid gid) = some ug0) :
    (db.userGifts.map (subOne uid gid)).find? (ugMatch uid gid)
      = some { ug0 with quantity := ug0.quantity - 1 } := by
  rw [find?_map_congr _ _ (ugMatch_subOne uid gid), hug, Option.map_some']
  have hm := List.find?_some hug
  simp [subOne, hm]

/-- Successful-path description of `send`: with a positive balance, a
resolvable gift type and a non-clashing fresh id, `send` answers ok, appends
exactly one `'sent'` (spec: issued) transaction carrying the derived QR
code, and decrements the sender's balance by one. -/
theorem send_spec (db : Db) (uid gid : Nat) (recv msg : Option String) (txId : String)
    (ug0 : UserGift) (gt0 : GiftType)
    (hgid : (gid == 0) = false)
    (hug : db.userGifts.find? (ugMatch uid gid) = some ug0)
    (hq : 1 ≤ ug0.quantity)
    (hgt : db.giftTypes.find? (gtMatch gid) = some gt0)
    (hfresh : db.transactions.any (txClash txId) = false) :
    (send db uid gid recv msg txId).2
        = SendResult.ok txId ("CADEAUTJE-" ++ txId) gt0.name ∧
    (send db uid gid recv msg txId).1.transactions
        = db.transactions
            ++ [⟨txId, uid, recv, gid, TxStatus.sent, "CADEAUTJE-" ++ txId, msg, none, none⟩] ∧
    balance (send db uid gid recv msg txId).1 uid gid = balance db uid gid - 1 ∧
    (send db uid gid recv msg txId).1.giftTypes = db.giftTypes ∧
    (send db uid gid recv msg txId).1.purchases = db.purchases := by
  have havail : db.userGifts.find? (ugAvail uid gid) = some ug0 :=
    find?_strengthen (ugMatch uid gid) (fun ug => decide (0 < ug.quantity))
      (ugAvail uid gid) (fun _ => rfl) db.userGifts ug0 hug
      (by simp only [decide_eq_true_eq]; omega)
  have hsend : send db uid gid recv msg txId
      = ({ db with
            transactions := db.transactions
              ++ [⟨txId, uid, recv, gid, TxStatus.sent, "CADEAUTJE-" ++ txId, msg, none, none⟩],
            userGifts := db.userGifts.map (subOne uid gid) },
         SendResult.ok txId ("CADEAUTJE-" ++ txId) gt0.name) := by
    unfold send
    rw [hgid, havail, hfresh, hgt]
    rfl
  refine ⟨by rw [hsend], by rw [hsend], ?_, by rw [hsend], by rw [hsend]⟩
  rw [hsend, balance_def, balance_def]
  show (((db.userGifts.map (subOne uid gid)).find? (ugMatch uid gid)).map
      UserGift.quantity).getD 0 = _
  rw [balance_subOne db uid gid ug0 hug, hug]
  rfl

/-- `send` never reads the `active` flag: toggling flags commutes with it
and leaves its result untouched. -/
theorem send_mapActive (db : Db) (f : GiftType → Bool) (uid gid : Nat)
    (recv msg : Option String) (txId : String) :
    send (mapActive f db) uid gid recv msg txId
      = (mapActive f (send db uid gid recv msg txId).1,
         (send db uid gid recv msg txId).2) := by
  have hmap := find?_map_congr (fun gt => { gt with active := f gt }) (gtMatch gid)
    (fun _ => rfl) db.giftTypes
  simp only [send, mapActive]
  rw [hmap]
  cases hgz : (gid == 0) with
  | true => rfl
  | false =>
    cases ha : db.userGifts.find? (ugAvail uid gid) with
    | none => rfl
    | some u =>
      cases hclash : db.transactions.any (txClash txId) with
      | true => rfl
      | false =>
        cases hgt : db.giftTypes.find? (gtMatch gid) with
        | none => rfl
        | some g => rfl

/-- C4: with balance(A, G) = k ≥ 1 and a fresh transaction id, `send`
succeeds, drops the balance to k − 1 and appends exactly one new transaction
whose stored status is `'sent'` (the spec's `issued`) and whose redemption
code differs from every previously stored code.  Freshness of the generated
uuid is a hypothesis: the source draws it from uuidv4 and the UNIQUE(qr_code)
constraint aborts the call on a clash. -/
theorem send_creates_issued_transaction (db : Db) (uid gid : Nat)
    (recv msg : Option String) (txId : String) (k : Int) (gt0 : GiftType)
    (hgid : (gid == 0) = false)
    (hbal : balance db uid gid = k) (hk : 1 ≤ k)
    (hgt : db.giftTypes.find? (gtMatch gid) = some gt0)
    (hfresh : db.transactions.any (txClash txId) = false) :
    (send db uid gid recv msg txId).2
        = SendResult.ok txId ("CADEAUTJE-" ++ txId) gt0.name ∧
    (send db uid gid recv msg txId).1.transactions
        = db.transactions
            ++ [⟨txId, uid, recv, gid, TxStatus.sent, "CADEAUTJE-" ++ txId, msg, none, none⟩] ∧
    balance (send db uid gid recv msg txId).1 uid gid = k - 1 ∧
    (∀ t ∈ db.transactions, t.qrCode ≠ "CADEAUTJE-" ++ txId) := by
  cases hug : db.userGifts.find? (ugMatch uid gid) with
  | none =>
    rw [balance_def, hug] at hbal
    simp only [Option.map_none', Option.getD_none] at hbal
    omega
  | some u =>
    have hq : 1 ≤ u.quantity := by
      rw [balance_def, hug] at hbal
      simp only [Option.map_some', Option.getD_some] at hbal
      omega
    obtain ⟨h1, h2, h3, _, _⟩ := send_spec db uid gid recv msg txId u gt0 hgid hug hq hgt hfresh
    refine ⟨h1, h2, by rw [h3, hbal], ?_⟩
    intro t ht hcontra
    have hcl := List.any_eq_false.mp hfresh t ht
    apply hcl
    unfold txClash
    rw [hcontra]
    simp

/-- Witness for C4: account 1 sends one of its five cakes. -/
theorem send_creates_issued_transaction_witness :
    (send exDb 1 2 none none "t4").2 = SendResult.ok "t4" ("CADEAUTJE-" ++ "t4") giftCake.name ∧
    (send exDb 1 2 none none "t4").1.transactions
        = exDb.transactions
            ++ [⟨"t4", 1, none, 2, TxStatus.sent, "CADEAUTJE-" ++ "t4", none, none, none⟩] ∧
    balance (send exDb 1 2 none none "t4").1 1 2 = 5 - 1 ∧
    (∀ t ∈ exDb.transactions, t.qrCode ≠ "CADEAUTJE-" ++ "t4") :=
  send_creates_issued_transaction exDb 1 2 none none "t4" 5 giftCake
    (by decide) (by decide) (by decide) (by decide) (by decide)

/-- C10: `send` never consults the gift definition's `active` flag.  For an
account holding a unit of an inactive definition, `send` still succeeds and
creates the transaction; moreover toggling `active` flags arbitrarily
commutes with `send` and cannot change its outcome. -/
theorem send_ignores_active_flag (db : Db) (uid gid : Nat) (recv msg : Option String)
    (txId : String) (ug0 : UserGift) (gt0 : GiftType)
    (hgid : (gid == 0) = false)
    (hug : db.userGifts.find? (ugMatch uid gid) = some ug0)
    (hq : 1 ≤ ug0.quantity)
    (hgt : db.giftTypes.find? (gtMatch gid) = some gt0)
    (hinactive : gt0.active = false)
    (hfresh : db.transactions.any (txClash txId) = false) :
    (send db uid gid recv msg txId).2
        = SendResult.ok txId ("CADEAUTJE-" ++ txId) gt0.name ∧
    (send db uid gid recv msg txId).1.transactions
        = db.transactions
            ++ [⟨txId, uid, recv, gid, TxStatus.sent, "CADEAUTJE-" ++ txId, msg, none, none⟩] ∧
    (∀ (db' : Db) (f : GiftType → Bool) (uid' gid' : Nat) (r m : Option String)
        (tid : String),
      (send (mapActive f db') uid' gid' r m tid).2 = (send db' uid' gid' r m tid).2 ∧
      (send (mapActive f db') uid' gid' r m tid).1
          = mapActive f (send db' uid' gid' r m tid).1) := by
  obtain ⟨h1, h2, _, _, _⟩ := send_spec db uid gid recv msg txId ug0 gt0 hgid hug hq hgt hfresh
  refine ⟨h1, h2, fun db' f uid' gid' r m tid => ?_⟩
  rw [send_mapActive db' f uid' gid' r m tid]
  exact ⟨rfl, rfl⟩

/-- Witness for C10: account 1 sends a unit of the deactivated `giftRetro`. -/
theorem send_ignores_active_flag_witness :
    (send exDb 1 3 none none "t10").2
        = SendResult.ok "t10" ("CADEAUTJE-" ++ "t10") giftRetro.name ∧
    (send exDb 1 3 none none "t10").1.transactions
        = exDb.transactions
            ++ [⟨"t10", 1, none, 3, TxStatus.sent, "CADEAUTJE-" ++ "t10", none, none, none⟩] :=
  ⟨(send_ignores_active_flag exDb 1 3 none none "t10" ⟨1, 3, 2⟩ giftRetro
      (by decide) (by decide) (by decide) (by decide) (by decide) (by decide)).1,
   (send_ignores_active_flag exDb 1 3 none none "t10" ⟨1, 3, 2⟩ giftRetro
      (by decide) (by decide) (by decide) (by decide) (by decide) (by decide)).2.1⟩

/-! ### Behaviour of purchase -/

theorem purchaseItems_giftTypes :
    ∀ (items : List (Nat × Int)) (db : Db) (uid : Nat) (total : Int),
      (purchaseItems db uid items total).1.giftTypes = db.giftTypes := by
  intro items
  induction items with
  | nil => intro db uid total; rfl
  | cons it rest ih =>
    intro db uid total
    obtain ⟨gid, q⟩ := it
    unfold purchaseItems
    cases hgt : db.giftTypes.find? (gtActiveMatch gid) with
    | none => rfl
    | some gt =>
      exact (ih (creditItem db uid gid q) uid (total + gt.price * q)).trans
        (creditItem_giftTypes db uid gid q)

theorem purchaseItems_purchases :
    ∀ (items : List (Nat × Int)) (db : Db) (uid : Nat) (total : Int),
      (purchaseItems db uid items total).1.purchases = db.purchases := by
  intro items
  induction items with
  | nil => intro db uid total; rfl
  | cons it rest ih =>
    intro db uid total
    obtain ⟨gid, q⟩ := it
    unfold purchaseItems
    cases hgt : db.giftTypes.find? (gtActiveMatch gid) with
    | none => rfl
    | some gt =>
      exact (ih (creditItem db uid gid q) uid (total + gt.price * q)).trans
        (creditItem_purchases db uid gid q)

/-- C8: a successful single-line purchase of n ≥ 1 units of an active gift
definition raises the account's balance for it by exactly n and appends
exactly one receipt whose total is n × price. -/
theorem purchase_single_item (db : Db) (uid : Nat) (pid : String) (gid : Nat)
    (n : Int) (gt0 : GiftType)
    (hgt : db.giftTypes.find? (gtActiveMatch gid) = some gt0)
    (hn : 1 ≤ n) :
    (purchase db uid pid [(gid, n)]).2 = PurchaseResult.ok pid (n * gt0.price) ∧
    balance (purchase db uid pid [(gid, n)]).1 uid gid = balance db uid gid + n ∧
    (purchase db uid pid [(gid, n)]).1.purchases
        = db.purchases ++ [⟨pid, uid, [(gid, n)], n * gt0.price⟩] := by
  have hitems : purchaseItems db uid [(gid, n)] 0
      = (creditItem db uid gid n, Except.ok (0 + gt0.price * n)) := by
    unfold purchaseItems
    rw [hgt]
    rfl
  have hcomm : 0 + gt0.price * n = n * gt0.price := by ring
  have hpurch : purchase db uid pid [(gid, n)]
      = ({ creditItem db uid gid n with
            purchases := (creditItem db uid gid n).purchases
              ++ [⟨pid, uid, [(gid, n)], n * gt0.price⟩] },
         PurchaseResult.ok pid (n * gt0.price)) := by
    unfold purchase
    rw [hitems, hcomm]
    rfl
  refine ⟨by rw [hpurch], ?_, ?_⟩
  · rw [hpurch]
    show balance (creditItem db uid gid n) uid gid = _
    exact balance_creditItem db uid gid n
  · rw [hpurch]
    show (creditItem db uid gid n).purchases ++ _ = _
    rw [creditItem_purchases]

/-- Witness for C8: buying three cakes on a fresh store. -/
theorem purchase_single_item_witness :
    (purchase freshDb 1 "p8" [(2, 3)]).2 = PurchaseResult.ok "p8" (3 * giftCake.price) ∧
    balance (purchase freshDb 1 "p8" [(2, 3)]).1 1 2 = balance freshDb 1 2 + 3 ∧
    (purchase freshDb 1 "p8" [(2, 3)]).1.purchases
        = freshDb.purchases ++ [⟨"p8", 1, [(2, 3)], 3 * giftCake.price⟩] :=
  purchase_single_item freshDb 1 "p8" 2 3 giftCake (by decide) (by decide)

/-- C2 is violated by the code: the purchase route credits inventory inside
the validation loop, so a cart whose second line is invalid leaves the first
line's credit behind while the purchase fails and no receipt is written —
partial application of a strict item list happens. -/
theorem purchase_partial_mutation_bug :
    (purchase freshDb 1 "p2" [(1, 1), (99, 1)]).2 = PurchaseResult.invalidGiftType 99 ∧
    (purchase freshDb 1 "p2" [(1, 1), (99, 1)]).1.userGifts = [⟨1, 1, 1⟩] ∧
    freshDb.userGifts = [] ∧
    (purchase freshDb 1 "p2" [(1, 1), (99, 1)]).1.purchases = [] := by
  decide

theorem purchaseItems_ok :
    ∀ (items : List (Nat × Int)) (db : Db) (uid : Nat) (total : Int),
      (∀ it ∈ items, (db.giftTypes.find? (gtActiveMatch it.1)).isSome = true) →
      ∃ t, (purchaseItems db uid items total).2 = Except.ok t := by
  intro items
  induction items with
  | nil => intro db uid total _; exact ⟨total, rfl⟩
  | cons it rest ih =>
    intro db uid total hall
    obtain ⟨gid, q⟩ := it
    have hhead := hall (gid, q) (List.mem_cons_self _ _)
    obtain ⟨gt, hgt⟩ := Option.isSome_iff_exists.mp hhead
    unfold purchaseItems
    rw [hgt]
    exact ih (creditItem db uid gid q) uid (total + gt.price * q)
      (fun it2 hit2 => by
        rw [creditItem_giftTypes]
        exact hall it2 (List.mem_cons_of_mem _ hit2))

theorem purchaseItems_error :
    ∀ (items : List (Nat × Int)) (db : Db) (uid : Nat) (total : Int),
      (∃ it ∈ items, db.giftTypes.find? (gtActiveMatch it.1) = none) →
      ∃ g, (purchaseItems db uid items total).2 = Except.error g := by
  intro items
  induction items with
  | nil => intro db uid total h; simp at h
  | cons it rest ih =>
    intro db uid total h
    obtain ⟨gid, q⟩ := it
    cases hgt : db.giftTypes.find? (gtActiveMatch gid) with
    | none =>
      refine ⟨gid, ?_⟩
      unfold purchaseItems
      rw [hgt]
    | some gt =>
      unfold purchaseItems
      rw [hgt]
      obtain ⟨it2, hmem, hnone⟩ := h
      rcases List.mem_cons.mp hmem with heq | hmem2
      · rw [heq] at hnone
        rw [hgt] at hnone
        exact absurd hnone (by simp)
      · exact ih (creditItem db uid gid q) uid (total + gt.price * q)
          ⟨it2, hmem2, by rw [creditItem_giftTypes]; exact hnone⟩

/-- C7 amended: the purchase route rejects an empty item list, succeeds when
every line resolves to an active gift definition, and fails with an
invalid-gift-type error when some line does not resolve (unknown or inactive
alike); quantities are never validated. -/
theorem purchase_validation (db : Db) (uid : Nat) (pid : String)
    (items : List (Nat × Int)) :
    (items = [] → purchase db uid pid items = (db, PurchaseResult.itemsRequired)) ∧
    ((∀ it ∈ items, (db.giftTypes.find? (gtActiveMatch it.1)).isSome = true) →
      items ≠ [] →
      ∃ total, (purchase db uid pid items).2 = PurchaseResult.ok pid total) ∧
    ((∃ it ∈ items, db.giftTypes.find? (gtActiveMatch it.1) = none) →
      ∃ g, (purchase db uid pid items).2 = PurchaseResult.invalidGiftType g) := by
  refine ⟨?_, ?_, ?_⟩
  · rintro rfl
    rfl
  · intro hall hne
    obtain ⟨t, ht⟩ := purchaseItems_ok items db uid 0 hall
    cases items with
    | nil => exact absurd rfl hne
    | cons a as =>
      refine ⟨t, ?_⟩
      unfold purchase
      rcases hpi : purchaseItems db uid (a :: as) 0 with ⟨db1, r⟩
      rw [hpi] at ht
      simp only [] at ht
      rw [ht]
      rfl
  · intro hbad
    obtain ⟨g, hg⟩ := purchaseItems_error items db uid 0 hbad
    cases items with
    | nil => simp at hbad
    | cons a as =>
      refine ⟨g, ?_⟩
      unfold purchase
      rcases hpi : purchaseItems db uid (a :: as) 0 with ⟨db1, r⟩
      rw [hpi] at hg
      simp only [] at hg
      rw [hg]
      rfl

/-- Witness for the amended C7 on concrete stores. -/
theorem purchase_validation_witness :
    purchase freshDb 1 "w7" [] = (freshDb, PurchaseResult.itemsRequired) ∧
    (∃ g, (purchase freshDb 1 "w7" [(99, 1)]).2 = PurchaseResult.invalidGiftType g) ∧
    (∃ g, (purchase freshDb 1 "w7" [(3, 1)]).2 = PurchaseResult.invalidGiftType g) :=
  ⟨(purchase_validation freshDb 1 "w7" []).1 rfl,
   (purchase_validation freshDb 1 "w7" [(99, 1)]).2.2 ⟨(99, 1), by decide, by decide⟩,
   (purchase_validation freshDb 1 "w7" [(3, 1)]).2.2 ⟨(3, 1), by decide, by decide⟩⟩

/-- C7 as stated is violated by the code: a zero quantity is not a positive
integer, yet the purchase of an active gift with quantity 0 succeeds and
writes a receipt with total 0 instead of failing with an invalid-item
error. -/
theorem zero_quantity_accepted_cex :
    (purchase freshDb 1 "p7" [(1, 0)]).2 = PurchaseResult.ok "p7" 0 ∧
    (purchase freshDb 1 "p7" [(1, 0)]).1.purchases = [⟨"p7", 1, [(1, 0)], 0⟩] := by
  decide

/-- C6 as stated is violated by the code: purchase applies unvalidated
quantities, so a single purchase with quantity −1 creates an inventory entry
holding −1 while the call still reports success. -/
theorem negative_inventory_cex :
    (purchase freshDb 1 "p6" [(1, -1)]).2 = PurchaseResult.ok "p6" (-350) ∧
    (purchase freshDb 1 "p6" [(1, -1)]).1.userGifts = [⟨1, 1, -1⟩] ∧
    (∃ ug ∈ (purchase freshDb 1 "p6" [(1, -1)]).1.userGifts, ug.quantity < 0) := by
  decide

/-! ### The non-negativity invariant under well-formed operations -/

/-- Every inventory row is non-negative. -/
def NonnegInv (db : Db) : Prop := ∀ ug ∈ db.userGifts, 0 ≤ ug.quantity

/-- At most one inventory row per (account, gift definition) key — the shape
the purchase upsert maintains and the send decrement relies on. -/
def KeyUnique (db : Db) : Prop :=
  db.userGifts.Pairwise (fun a b => ¬(a.userId = b.userId ∧ a.giftTypeId = b.giftTypeId))

/-- One lifecycle operation whose purchase quantities are non-negative (the
spec's precondition; the route itself never checks it). -/
inductive GoodStep : Db → Db → Prop
  | purchase (db : Db) (uid : Nat) (pid : String) (items : List (Nat × Int))
      (hq : ∀ it ∈ items, 0 ≤ it.2) :
      GoodStep db (Cadeautjes.purchase db uid pid items).1
  | send (db : Db) (uid gid : Nat) (recv msg : Option String) (txId : String) :
      GoodStep db (Cadeautjes.send db uid gid recv msg txId).1

/-- States reachable by sequences of such operations. -/
inductive Reaches : Db → Db → Prop
  | refl (db : Db) : Reaches db db
  | tail {db0 db1 db2 : Db} : Reaches db0 db1 → GoodStep db1 db2 → Reaches db0 db2

theorem nonneg_creditItem (db : Db) (uid gid : Nat) (q : Int)
    (h : NonnegInv db) (hq : 0 ≤ q) : NonnegInv (creditItem db uid gid q) := by
  unfold creditItem
  cases hf : db.userGifts.find? (ugMatch uid gid) with
  | none =>
    intro ug hug
    rcases List.mem_append.mp hug with h1 | h1
    · exact h ug h1
    · have : ug = ⟨uid, gid, q⟩ := by simpa using h1
      rw [this]
      exact hq
  | some u =>
    intro ug hug
    obtain ⟨v, hv, rfl⟩ := List.mem_map.mp hug
    unfold addQty
    split
    · exact add_nonneg (h v hv) hq
    · exact h v hv

theorem keyUnique_creditItem (db : Db) (uid gid : Nat) (q : Int)
    (h : KeyUnique db) : KeyUnique (creditItem db uid gid q) := by
  unfold creditItem
  cases hf : db.userGifts.find? (ugMatch uid gid) with
  | some u =>
    unfold KeyUnique
    show List.Pairwise _ (db.userGifts.map (addQty uid gid q))
    rw [List.pairwise_map]
    apply h.imp
    intro a b hab
    have h1 : ∀ x, (addQty uid gid q x).userId = x.userId := fun x => by
      unfold addQty; split <;> rfl
    have h2 : ∀ x, (addQty uid gid q x).giftTypeId = x.giftTypeId := fun x => by
      unfold addQty; split <;> rfl
    rw [h1, h1, h2, h2]
    exact hab
  | none =>
    unfold KeyUnique
    show List.Pairwise _ (db.userGifts ++ [⟨uid, gid, q⟩])
    rw [List.pairwise_append]
    refine ⟨h, List.pairwise_singleton _ _, ?_⟩
    intro a ha b hb
    have hb2 : b = ⟨uid, gid, q⟩ := by simpa using hb
    rw [hb2]
    rintro ⟨hu, hg2⟩
    have hno := List.find?_eq_none.mp hf a ha
    apply hno
    simp [ugMatch, hu, hg2]

theorem nonneg_send (db : Db) (uid gid : Nat) (recv msg : Option String) (txId : String)
    (h : NonnegInv db) (hk : KeyUnique db) :
    NonnegInv (send db uid gid recv msg txId).1 := by
  unfold send
  cases hgz : (gid == 0) with
  | true => exact h
  | false =>
    cases ha : db.userGifts.find? (ugAvail uid gid) with
    | none => exact h
    | some u =>
      cases hclash : db.transactions.any (txClash txId) with
      | true => exact h
      | false =>
        have humem : u ∈ db.userGifts := List.mem_of_find?_eq_some ha
        have hai := List.find?_some ha
        have hu : ugMatch uid gid u = true := ((Bool.and_eq_true _ _).mp hai).1
        have hq : 0 < u.quantity := by
          have := ((Bool.and_eq_true _ _).mp hai).2
          simpa using this
        have hkey : ∀ v ∈ db.userGifts, ugMatch uid gid v = true → v = u := by
          intro v hv hvm
          by_cases hvu : v = u
          · exact hvu
          · have hsym : Symmetric
                (fun a b : UserGift => ¬(a.userId = b.userId ∧ a.giftTypeId = b.giftTypeId)) :=
              fun a b hab ⟨x, y⟩ => hab ⟨x.symm, y.symm⟩
            have := hk.forall hsym hv humem hvu
            exfalso
            apply this
            simp only [ugMatch, Bool.and_eq_true, beq_iff_eq] at hvm hu
            exact ⟨hvm.1.trans hu.1.symm, hvm.2.trans hu.2.symm⟩
        have hall : ∀ v ∈ db.userGifts.map (subOne uid gid), 0 ≤ v.quantity := by
          intro v hv
          obtain ⟨w, hw, rfl⟩ := List.mem_map.mp hv
          unfold subOne
          split
          next hwm =>
            have hwu : w = u := hkey w hw hwm
            rw [hwu]
            show (0 : Int) ≤ u.quantity - 1
            omega
          next => exact h w hw
        cases hgt : db.giftTypes.find? (gtMatch gid) with
        | none => exact hall
        | some g => exact hall

theorem keyUnique_send (db : Db) (uid gid : Nat) (recv msg : Option String)
    (txId : String) (hk : KeyUnique db) :
    KeyUnique (send db uid gid recv msg txId).1 := by
  unfold send
  cases hgz : (gid == 0) with
  | true => exact hk
  | false =>
    cases ha : db.userGifts.find? (ugAvail uid gid) with
    | none => exact hk
    | some u =>
      cases hclash : db.transactions.any (txClash txId) with
      | true => exact hk
      | false =>
        have hmap : List.Pairwise
            (fun a b : UserGift => ¬(a.userId = b.userId ∧ a.giftTypeId = b.giftTypeId))
            (db.userGifts.map (subOne uid gid)) := by
          rw [List.pairwise_map]
          apply hk.imp
          intro a b hab
          have h1 : ∀ x, (subOne uid gid x).userId = x.userId := fun x => by
            unfold subOne; split <;> rfl
          have h2 : ∀ x, (subOne uid gid x).giftTypeId = x.giftTypeId := fun x => by
            unfold subOne; split <;> rfl
          rw [h1, h1, h2, h2]
          exact hab
        cases hgt : db.giftTypes.find? (gtMatch gid) with
        | none => exact hmap
        | some g => exact hmap

theorem inv_purchaseItems :
    ∀ (items : List (Nat × Int)) (db : Db) (uid : Nat) (total : Int),
      (∀ it ∈ items, 0 ≤ it.2) → NonnegInv db → KeyUnique db →
      NonnegInv (purchaseItems db uid items total).1 ∧
        KeyUnique (purchaseItems db uid items total).1 := by
  intro items
  induction items with
  | nil => intro db uid total _ h1 h2; exact ⟨h1, h2⟩
  | cons it rest ih =>
    intro db uid total hq h1 h2
    obtain ⟨gid, q⟩ := it
    unfold purchaseItems
    cases hgt : db.giftTypes.find? (gtActiveMatch gid) with
    | none => exact ⟨h1, h2⟩
    | some gt =>
      have hq0 : (0 : Int) ≤ q := hq (gid, q) (List.mem_cons_self _ _)
      exact ih (creditItem db uid gid q) uid (total + gt.price * q)
        (fun it2 hit2 => hq it2 (List.mem_cons_of_mem _ hit2))
        (nonneg_creditItem db uid gid q h1 hq0)
        (keyUnique_creditItem db uid gid q h2)

theorem inv_purchase (db : Db) (uid : Nat) (pid : String) (items : List (Nat × Int))
    (hq : ∀ it ∈ items, 0 ≤ it.2) (h1 : NonnegInv db) (h2 : KeyUnique db) :
    NonnegInv (purchase db uid pid items).1 ∧ KeyUnique (purchase db uid pid items).1 := by
  unfold purchase
  cases hie : items.isEmpty with
  | true => exact ⟨h1, h2⟩
  | false =>
    rcases hpi : purchaseItems db uid items 0 with ⟨db1, r⟩
    have hinv := inv_purchaseItems items db uid 0 hq h1 h2
    rw [hpi] at hinv
    cases r with
    | error g => exact hinv
    | ok t => exact hinv

/-- C6 amended: the only debit (send's decrement) is guarded — with no
positive row it is rejected with no state change — and from any state with
unique inventory keys and non-negative rows, every state reachable by sends
and by purchases with non-negative quantities keeps every unitCount ≥ 0.
The unamended claim fails because purchase accepts negative quantities. -/
theorem inventory_nonneg_invariant (db0 db1 : Db) (h1 : NonnegInv db0)
    (h2 : KeyUnique db0) (hr : Reaches db0 db1) :
    NonnegInv db1 ∧ KeyUnique db1 ∧
    (∀ (db : Db) (uid gid : Nat) (recv msg : Option String) (tid : String),
      (gid == 0) = false →
      db.userGifts.find? (ugAvail uid gid) = none →
      send db uid gid recv msg tid = (db, SendResult.notAvailable)) := by
  have main : NonnegInv db1 ∧ KeyUnique db1 := by
    induction hr with
    | refl => exact ⟨h1, h2⟩
    | tail hsteps hstep ih =>
      cases hstep with
      | purchase uid pid items hqs => exact inv_purchase _ uid pid items hqs ih.1 ih.2
      | send uid gid recv msg txId =>
        exact ⟨nonneg_send _ uid gid recv msg txId ih.1 ih.2,
          keyUnique_send _ uid gid recv msg txId ih.2⟩
  refine ⟨main.1, main.2, ?_⟩
  intro db uid gid recv msg tid hgz hnone
  unfold send
  rw [hgz, hnone]
  rfl

/-- Witness for the amended C6: one well-formed purchase step from the fresh
store, plus a rejected debit. -/
theorem inventory_nonneg_invariant_witness :
    NonnegInv (purchase freshDb 1 "w6" [(1, 2)]).1 ∧
    send freshDb 1 99 none none "w6x" = (freshDb, SendResult.notAvailable) :=
  ⟨(inventory_nonneg_invariant freshDb (purchase freshDb 1 "w6" [(1, 2)]).1
      (fun ug h => absurd h (List.not_mem_nil ug))
      List.Pairwise.nil
      (Reaches.tail (Reaches.refl freshDb)
        (GoodStep.purchase freshDb 1 "w6" [(1, 2)] (by decide)))).1,
   (inventory_nonneg_invariant freshDb freshDb
      (fun ug h => absurd h (List.not_mem_nil ug))
      List.Pairwise.nil
      (Reaches.refl freshDb)).2.2 freshDb 1 99 none none "w6x" (by decide) (by decide)⟩

/-! ### Inventory orderings (C9) and code derivation (C5) -/

/-- C9 as stated is violated: on the same store the inventory view lists
gift types [1, 3, 2] (category, then name) while the device sync lists
[2, 3, 1] (quantity descending, then name) — the two consumers do not
receive the same ordering. -/
theorem inventory_sync_order_cex :
    (inventoryQuery exDb 1).map (fun r => r.2.id) = [1, 3, 2] ∧
    (syncQuery exDb 1).map (fun r => r.2.id) = [2, 3, 1] ∧
    (inventoryQuery exDb 1).map (fun r => r.2.id)
      ≠ (syncQuery exDb 1).map (fun r => r.2.id) := by
  decide

/-- C9 amended: both consumers receive exactly the account's strictly
positive joined inventory rows, but in different orders: the inventory view
sorted by category then name, the device sync sorted by quantity descending
then name. -/
theorem inventory_orderings (db : Db) (uid : Nat) :
    List.Perm (inventoryQuery db uid) (userInventoryRows db uid) ∧
    List.Sorted catNameLe (inventoryQuery db uid) ∧
    List.Perm (syncQuery db uid) (userInventoryRows db uid) ∧
    List.Sorted qtyNameLe (syncQuery db uid) ∧
    (∀ r ∈ userInventoryRows db uid,
      r.1.userId = uid ∧ 0 < r.1.quantity ∧ r.2.id = r.1.giftTypeId ∧
      r.1 ∈ db.userGifts ∧ r.2 ∈ db.giftTypes) := by
  refine ⟨List.perm_insertionSort _ _, List.sorted_insertionSort _ _,
    List.perm_insertionSort _ _, List.sorted_insertionSort _ _, ?_⟩
  intro r hr
  unfold userInventoryRows at hr
  obtain ⟨ug, hugmem, hf⟩ := List.mem_filterMap.mp hr
  by_cases hc : (ug.userId == uid && decide (0 < ug.quantity)) = true
  · rw [if_pos hc] at hf
    obtain ⟨gt, hgt, hpair⟩ := Option.map_eq_some'.mp hf
    obtain ⟨hu, hq⟩ := (Bool.and_eq_true _ _).mp hc
    rw [← hpair]
    refine ⟨by simpa using hu, by simpa using hq, ?_, hugmem,
      List.mem_of_find?_eq_some hgt⟩
    have := List.find?_some hgt
    simpa [gtMatch] using this
  · rw [if_neg hc] at hf
    exact absurd hf (by simp)

/-- Witness for the amended C9 at the concrete store. -/
theorem inventory_orderings_witness :
    List.Perm (inventoryQuery exDb 1) (userInventoryRows exDb 1) ∧
    List.Sorted catNameLe (inventoryQuery exDb 1) ∧
    List.Sorted qtyNameLe (syncQuery exDb 1) :=
  ⟨(inventory_orderings exDb 1).1, (inventory_orderings exDb 1).2.1,
   (inventory_orderings exDb 1).2.2.2.1⟩

/-- C5 is violated: the redemption code is derived from the transaction
identity by prefixing the constant word CADEAUTJE, as these two concrete
sends show — knowing the transaction identity determines the redemption
code outright. -/
theorem qr_code_determined_cex :
    (send exDb 1 1 none none "11111111").2
        = SendResult.ok "11111111" "CADEAUTJE-11111111" "Biertje" ∧
    (send exDb 1 1 none none "22222222").2
        = SendResult.ok "22222222" "CADEAUTJE-22222222" "Biertje" := by
  decide

theorem send_transactions_sub (db : Db) (uid gid : Nat) (recv msg : Option String)
    (txId : String) :
    (send db uid gid recv msg txId).1.transactions = db.transactions ∨
    (send db uid gid recv msg txId).1.transactions
      = db.transactions
          ++ [⟨txId, uid, recv, gid, TxStatus.sent, "CADEAUTJE-" ++ txId, msg, none, none⟩] := by
  unfold send
  cases hgz : (gid == 0) with
  | true => exact Or.inl rfl
  | false =>
    cases ha : db.userGifts.find? (ugAvail uid gid) with
    | none => exact Or.inl rfl
    | some u =>
      cases hclash : db.transactions.any (txClash txId) with
      | true => exact Or.inl rfl
      | false =>
        cases hgt : db.giftTypes.find? (gtMatch gid) with
        | none => exact Or.inr rfl
        | some g => exact Or.inr rfl

/-- C5 amended: every transaction created by `send` carries
qrCode = "CADEAUTJE-" ++ id, so the transaction identity fully determines the
redemption code, and conversely the code determines the identity (the
derivation is injective): the two are in 1:1 correspondence, not
independent. -/
theorem qr_code_derived_from_id (db : Db) (uid gid : Nat) (recv msg : Option String)
    (txId : String) :
    (∀ t ∈ (send db uid gid recv msg txId).1.transactions, t ∉ db.transactions →
      t.qrCode = "CADEAUTJE-" ++ t.id) ∧
    (∀ s s' : String, "CADEAUTJE-" ++ s = "CADEAUTJE-" ++ s' → s = s') := by
  constructor
  · intro t ht hnot
    rcases send_transactions_sub db uid gid recv msg txId with hsub | hsub
    · rw [hsub] at ht
      exact absurd ht hnot
    · rw [hsub] at ht
      rcases List.mem_append.mp ht with hmem | hmem
      · exact absurd hmem hnot
      · have : t = ⟨txId, uid, recv, gid, TxStatus.sent, "CADEAUTJE-" ++ txId,
            msg, none, none⟩ := by simpa using hmem
        rw [this]
  · intro s s' hss
    have hdata := congrArg String.data hss
    rw [String.data_append, String.data_append] at hdata
    have htail := List.append_cancel_left hdata
    cases s
    cases s'
    exact congrArg String.mk (by simpa using htail)

/-- Witness for the amended C5: the transaction minted by a concrete send
carries the derived code. -/
theorem qr_code_derived_from_id_witness :
    (⟨"t5", 1, none, 1, TxStatus.sent, "CADEAUTJE-t5", none, none, none⟩
        : Transaction).qrCode = "CADEAUTJE-" ++ "t5" :=
  (qr_code_derived_from_id exDb 1 1 none none "t5").1
    ⟨"t5", 1, none, 1, TxStatus.sent, "CADEAUTJE-t5", none, none, none⟩
    (by decide) (by decide)

end Cadeautjes
